import Mathlib

/-!
Verification development for the DiscordCreamer provisioning CLI.

Python strings are modelled as `List Char`; opaque payload strings (HTTP
bodies, header values) stay `String`.  Python floats are modelled as `ℚ`.
Fallible Python code is modelled with `Except`; remote calls are modelled
by outcome oracles passed in explicitly.  Every definition is translated
from the corresponding function in `src/discord_cli/`.
-/

/- ===== Python string primitives ===== -/

/-- Characters stripped by Python `str.strip()` with no argument
(the characters for which Python `str.isspace()` is true). -/
def isPySpace (c : Char) : Bool :=
  c.toNat ∈ ([9, 10, 11, 12, 13, 28, 29, 30, 31, 32, 133, 160,
    0x1680, 0x2000, 0x2001, 0x2002, 0x2003, 0x2004, 0x2005, 0x2006, 0x2007,
    0x2008, 0x2009, 0x200A, 0x2028, 0x2029, 0x202F, 0x205F, 0x3000] : List Nat)

/-- Drop the longest suffix of characters satisfying `p`. -/
def dropTrailing (p : Char → Bool) (l : List Char) : List Char :=
  (l.reverse.dropWhile p).reverse

/-- Python `str.strip()` with no argument. -/
def pyStrip (l : List Char) : List Char :=
  dropTrailing isPySpace (l.dropWhile isPySpace)

/-- Python `str.lstrip()` with no argument. -/
def pyLStrip (l : List Char) : List Char :=
  l.dropWhile isPySpace

/-- Python `str.strip(cs)`: remove characters of `cs` from both ends. -/
def pyStripChars (cs : List Char) (l : List Char) : List Char :=
  dropTrailing (fun c => decide (c ∈ cs)) (l.dropWhile (fun c => decide (c ∈ cs)))

/-- ASCII lower-casing of a single character (`str.lower` restricted to the
range that matters for the `bot ` prefix test). -/
def asciiLower (c : Char) : Char :=
  if 65 ≤ c.toNat ∧ c.toNat ≤ 90 then Char.ofNat (c.toNat + 32) else c

def quoteChar : Char := Char.ofNat 39

def dquoteChar : Char := Char.ofNat 34

def nlChar : Char := Char.ofNat 10

def crChar : Char := Char.ofNat 13

def zwsChar : Char := Char.ofNat 0x200B

def hashChar : Char := Char.ofNat 35

def spaceChar : Char := Char.ofNat 32

/- ===== Token normalization (`DiscordProvisioner._normalize_token`) ===== -/

/-- Diagnostic notes appended by `_normalize_token`; each constructor stands
for one of the distinct note strings of the source. -/
inductive NormNote where
  | trimmedWhitespace
  | surroundingQuotes
  | strayEdgeQuotes
  | newlines
  | botTag
  | zws
deriving DecidableEq, Repr

/-- First step of `_normalize_token`: `working = original.strip()` with its
note when the value changed. -/
def stepTrim (s : List Char) : List Char × List NormNote :=
  let w := pyStrip s
  (w, if w = s then [] else [NormNote.trimmedWhitespace])

/-- Second step: strip one layer of matching surrounding quotes
(`working[0] == working[-1]` and the edge is a quote), then `strip()`. -/
def stepSurroundingQuotes (s : List Char) : List Char × List NormNote :=
  if 2 ≤ s.length ∧ s.head? = s.getLast? ∧
      (s.head? = some dquoteChar ∨ s.head? = some quoteChar) then
    (pyStrip ((s.drop 1).dropLast), [NormNote.surroundingQuotes])
  else
    (s, [])

def tokenQuoteChars : List Char := [quoteChar, dquoteChar]

/-- Third step: `working.strip(quotes)` with its note when changed. -/
def stepEdgeQuotes (s : List Char) : List Char × List NormNote :=
  let w := pyStripChars tokenQuoteChars s
  (w, if w = s then [] else [NormNote.strayEdgeQuotes])

/-- Fourth step: remove every newline and carriage-return character
(`working.replace` on both), one note when anything changed. -/
def stepNewlines (s : List Char) : List Char × List NormNote :=
  let w := (s.filter (fun c => decide (c ≠ nlChar))).filter (fun c => decide (c ≠ crChar))
  (w, if w = s then [] else [NormNote.newlines])

def botWord : List Char := [Char.ofNat 98, Char.ofNat 111, Char.ofNat 116, Char.ofNat 32]

/-- Test of `working.lower().startswith` against the bot-style marker. -/
def botGate (s : List Char) : Prop :=
  (s.map asciiLower).take 4 = botWord

instance (s : List Char) : Decidable (botGate s) := by
  unfold botGate; infer_instance

/-- Fifth step: drop the 4-character bot-style marker then `lstrip()`. -/
def stepBotTag (s : List Char) : List Char × List NormNote :=
  if botGate s then
    (pyLStrip (s.drop 4), [NormNote.botTag])
  else
    (s, [])

/-- Sixth step: remove zero-width-space characters when present. -/
def stepZws (s : List Char) : List Char × List NormNote :=
  if zwsChar ∈ s then
    (s.filter (fun c => decide (c ≠ zwsChar)), [NormNote.zws])
  else
    (s, [])

/-- Embedding of `DiscordProvisioner._normalize_token` (returns the
normalized token and the diagnostic notes, in source order).  `token or ""`
of the source is the identity on `List Char`. -/
def normalizeToken (token : List Char) : List Char × List NormNote :=
  let (s1, n1) := stepTrim token
  let (s2, n2) := stepSurroundingQuotes s1
  let (s3, n3) := stepEdgeQuotes s2
  let (s4, n4) := stepNewlines s3
  let (s5, n5) := stepBotTag s4
  let (s6, n6) := stepZws s5
  (s6, n1 ++ n2 ++ n3 ++ n4 ++ n5 ++ n6)

/- ===== Server-name sanitization (`utils.sanitize_server_name`) ===== -/

/-- The ASCII portion of Python's Unicode-aware word class `\w`.  Python's
full class additionally contains the non-ASCII Unicode word characters;
the embedding keeps that table abstract (an `isWord : Char → Bool`
parameter that theorems quantify over) and uses this function only to
instantiate concrete all-ASCII witnesses, on which every faithful table
agrees with it. -/
def asciiWordChar (c : Char) : Bool :=
  c.isAlphanum || c = Char.ofNat 95

/-- Complement of the class removed by `SERVER_NAME_REGEX = [^\w\s-]`:
the characters the substitution keeps — word characters (the Unicode word
table `\w` passed in as `isWord`), whitespace, and the hyphen. -/
def isAllowedServerChar (isWord : Char → Bool) (c : Char) : Bool :=
  isWord c || isPySpace c || c = Char.ofNat 45

/-- Typed errors raised by the configuration-parsing helpers
(`ConfigurationError` of `errors.py`, one constructor per message). -/
inductive ConfigErr where
  | emptyServerName
  | emptyTargetUser
  | badTargetFormat
deriving DecidableEq, Repr

/-- Embedding of `utils.sanitize_server_name`: remove disallowed characters,
trim, reject empty, truncate to 95 characters.  `isWord` is Python's
Unicode word table `\w` (abstract, see `asciiWordChar`). -/
def sanitizeServerName (isWord : Char → Bool) (name : List Char) :
    Except ConfigErr (List Char) :=
  let cleaned := pyStrip (name.filter (isAllowedServerChar isWord))
  if cleaned = [] then Except.error ConfigErr.emptyServerName
  else Except.ok (cleaned.take 95)

/- ===== Target-user parsing (`utils.parse_target_user`) ===== -/

/-- Mirror of `config.InvitationConfig` (dataclass). -/
structure InvitationConfig where
  raw_identifier : List Char
  user_id : Option Nat := none
  username : Option (List Char) := none
  discriminator : Option (List Char) := none
  grant_admin : Bool := true
deriving DecidableEq, Repr

/-- The ASCII portion of Python's Unicode decimal-digit table: `some v`
when the character is an ASCII digit of value `v`, `none` otherwise.
Python's regex `\d` and `int()` accept all Unicode decimal digits
(category Nd); the embedding keeps that table abstract (a
`digitVal : Char → Option Nat` parameter that theorems quantify over) and
uses this function only to instantiate concrete all-ASCII witnesses, on
which every faithful table agrees with it. -/
def asciiDigitVal (c : Char) : Option Nat :=
  if 48 ≤ c.toNat ∧ c.toNat ≤ 57 then some (c.toNat - 48) else none

/-- Test of Python regex `\d` on one character, under the decimal-digit
table `digitVal`. -/
def isDigitChar (digitVal : Char → Option Nat) (c : Char) : Bool :=
  (digitVal c).isSome

/-- Python `int` on a string of decimal digits, under the decimal-digit
table `digitVal`. -/
def digitsToNat (digitVal : Char → Option Nat) (l : List Char) : Nat :=
  l.foldl (fun n c => n * 10 + (digitVal c).getD 0) 0

/-- Part of `identifier.partition` at the first hash: the prefix. -/
def hashName (l : List Char) : List Char :=
  l.takeWhile (fun c => decide (c ≠ hashChar))

/-- Part of `identifier.partition` at the first hash: the remainder after
the hash. -/
def hashDisc (l : List Char) : List Char :=
  (l.dropWhile (fun c => decide (c ≠ hashChar))).drop 1

/-- Embedding of `utils.parse_target_user`.  `digitVal` is Python's
Unicode decimal-digit table (abstract, see `asciiDigitVal`). -/
def parseTargetUser (digitVal : Char → Option Nat) (identifier : List Char) :
    Except ConfigErr InvitationConfig :=
  let id := pyStrip identifier
  if id = [] then Except.error ConfigErr.emptyTargetUser
  else if 5 ≤ id.length ∧ id.all (isDigitChar digitVal) then
    Except.ok { raw_identifier := id, user_id := some (digitsToNat digitVal id) }
  else if hashChar ∈ id then
    if hashName id = [] ∨ hashDisc id = [] ∨
        ¬((hashDisc id).length = 4 ∧ (hashDisc id).all (isDigitChar digitVal)) then
      Except.error ConfigErr.badTargetFormat
    else
      Except.ok { raw_identifier := id, username := some (hashName id),
                  discriminator := some (hashDisc id) }
  else Except.error ConfigErr.badTargetFormat

/-- Specification-side predicate: a purely numeric string of at least five
decimal digits, under the decimal-digit table `digitVal`. -/
def isNumericIdStr (digitVal : Char → Option Nat) (l : List Char) : Bool :=
  decide (5 ≤ l.length) && l.all (isDigitChar digitVal)

/-- Specification-side predicate: shaped like a user name, one hash and a
4-digit discriminator, under the decimal-digit table `digitVal`. -/
def isNameDiscStr (digitVal : Char → Option Nat) (l : List Char) : Bool :=
  decide (hashChar ∈ l) && decide (hashName l ≠ []) &&
    decide ((hashDisc l).length = 4) && (hashDisc l).all (isDigitChar digitVal)

/- ===== Rate-limit retry executor (`utils.with_rate_limit_retry`) ===== -/

def emptyStr : String := ""

/-- Mirror of the response object attached to a `discord.HTTPException`
(only the header map is consulted by the embedded code). -/
structure HTTPResp where
  headers : List (String × String)
deriving DecidableEq, Repr

/-- Mirror of `discord.HTTPException` as consulted by the embedded code:
status, optional response object, optional body text. -/
structure HTTPExc where
  status : Nat
  response : Option HTTPResp := none
  text : Option String := none
deriving DecidableEq, Repr

/-- Result of the retry executor: the operation value, a re-raised
`discord.HTTPException`, or the post-loop `RateLimitError`. -/
inductive RetryResult (α : Type) where
  | ok (a : α)
  | httpError (e : HTTPExc)
  | rateLimitExhausted
deriving DecidableEq, Repr

/-- Loop body of `with_rate_limit_retry`: the operation is an oracle from
the attempt index to its outcome; `fuel` counts the remaining iterations of
`range(retries)`.  Returns the result together with the sleeps performed,
in order. -/
def retryGo (op : Nat → Except HTTPExc α) (retries : Nat) (factor : ℚ) :
    Nat → Nat → ℚ → RetryResult α × List ℚ
  | 0, _, _ => (RetryResult.rateLimitExhausted, [])
  | fuel + 1, attempt, delay =>
    match op attempt with
    | Except.ok v => (RetryResult.ok v, [])
    | Except.error exc =>
      if exc.status = 429 ∧ attempt < retries - 1 then
        let rest := retryGo op retries factor fuel (attempt + 1) (delay * factor)
        (rest.1, delay :: rest.2)
      else
        (RetryResult.httpError exc, [])

/-- Embedding of `utils.with_rate_limit_retry`. -/
def withRateLimitRetry (op : Nat → Except HTTPExc α) (retries : Nat := 5)
    (base_delay : ℚ := 2) (backoff_factor : ℚ := 2) : RetryResult α × List ℚ :=
  retryGo op retries backoff_factor retries 0 base_delay

/- ===== Retry-after extraction (`_retry_after_from_exception`) ===== -/

/-- JSON values as produced by `json.loads`. -/
inductive Json where
  | null
  | jbool (b : Bool)
  | jnum (q : ℚ)
  | jstr (s : String)
  | jarr (elems : List Json)
  | jobj (fields : List (String × Json))

/-- Lookup in the response header map (`response.headers.get`). -/
def getHeaderVal (hs : List (String × String)) (k : String) : Option String :=
  (hs.find? (fun p => p.1 == k)).map (·.2)

/-- Lookup in a JSON object (`data.get`). -/
def jsonGet (fields : List (String × Json)) (k : String) : Option Json :=
  (fields.find? (fun p => p.1 == k)).map (·.2)

/-- Python `float(value)` on a JSON-decoded value: numbers pass through,
strings go through the float parser `pf`, booleans coerce, anything else
raises `TypeError` (modelled as `none`, the error is caught at the call
site). -/
def pyFloatOfJson (pf : String → Option ℚ) : Json → Option ℚ
  | Json.jnum q => some q
  | Json.jstr s => pf s
  | Json.jbool b => some (if b then 1 else 0)
  | _ => none

def retryAfterKey : String := "Retry-After"

def retryAfterField : String := "retry_after"

/-- Embedding of `DiscordProvisioner._retry_after_from_exception`.  `pf`
models Python `float` on strings and `jp` models `json.loads`; both are
kept abstract so the theorems hold for every parser behaviour.  A header
parse failure executes `pass` in the source and falls through to the body
branch, which the `fromHeader` intermediate reproduces. -/
def retryAfterFromException (pf : String → Option ℚ) (jp : String → Option Json)
    (exc : HTTPExc) : Option ℚ :=
  let fromHeader : Option ℚ :=
    match exc.response with
    | none => none
    | some resp =>
      match getHeaderVal resp.headers retryAfterKey with
      | none => none
      | some h => if h = emptyStr then none else pf h
  match fromHeader with
  | some q => some q
  | none =>
    match exc.text with
    | none => none
    | some t =>
      if t = emptyStr then none
      else
        match jp t with
        | none => none
        | some (Json.jobj fields) =>
          match jsonGet fields retryAfterField with
          | none => none
          | some Json.null => none
          | some v => pyFloatOfJson pf v
        | some _ => none

/- ===== Authentication (`DiscordProvisioner._authenticate`) ===== -/

/-- Python `int(round(x))`: round-half-to-even on rationals. -/
def pyRound (q : ℚ) : ℤ :=
  let f := ⌊q⌋
  let r := q - f
  if r < 1 / 2 then f
  else if 1 / 2 < r then f + 1
  else if f % 2 = 0 then f else f + 1

/-- Typed `AuthenticationError`, one constructor per distinct message shape
of `_build_authentication_error` and `_authenticate`. -/
inductive AuthErr where
  | emptyToken
  | tokenRejected
  | loginDenied
  | rateLimitedWait (seconds : ℤ)
  | rateLimitedMoment
  | rateLimitedUnknown
  | otherStatus (status : Nat) (detail : List Char)
deriving DecidableEq, Repr

/-- Embedding of `DiscordProvisioner._build_authentication_error`. -/
def buildAuthenticationError (pf : String → Option ℚ) (jp : String → Option Json)
    (exc : HTTPExc) : AuthErr :=
  if exc.status = 401 then AuthErr.tokenRejected
  else if exc.status = 403 then AuthErr.loginDenied
  else if exc.status = 429 then
    match retryAfterFromException pf jp exc with
    | some ra =>
      if 1 ≤ ra then AuthErr.rateLimitedWait (max 1 (pyRound ra))
      else AuthErr.rateLimitedMoment
    | none => AuthErr.rateLimitedUnknown
  else
    AuthErr.otherStatus exc.status (pyStrip (exc.text.getD emptyStr).data)

/-- Possible outcomes of the diagnostic REST probe
(`_validate_token_with_rest`): a response with its status and body, a
timeout, an `aiohttp.ClientError`, or any other exception. -/
inductive ProbeOutcome where
  | httpResp (status : Nat) (body : String)
  | timedOut
  | clientError (name text : String)
  | unexpected (name text : String)
deriving Repr

/-- Debug lines emitted by the probe, one constructor per source line. -/
inductive ProbeLog where
  | endpointLine
  | headersLine
  | statusLine (s : Nat)
  | bodyLine (b : String)
  | okLine
  | non200Line
  | timeoutLine
  | clientErrLine
  | unexpectedLine
deriving Repr

/-- Embedding of `DiscordProvisioner._validate_token_with_rest`: a total
function from the probe outcome to the debug lines logged; every exception
branch is caught in the source, so no failure escapes. -/
def validateTokenWithRest (out : ProbeOutcome) : List ProbeLog :=
  match out with
  | ProbeOutcome.httpResp status body =>
    [ProbeLog.endpointLine, ProbeLog.headersLine, ProbeLog.statusLine status,
     ProbeLog.bodyLine body] ++
      (if status = 200 then [ProbeLog.okLine] else [ProbeLog.non200Line])
  | ProbeOutcome.timedOut =>
    [ProbeLog.endpointLine, ProbeLog.headersLine, ProbeLog.timeoutLine]
  | ProbeOutcome.clientError _ _ =>
    [ProbeLog.endpointLine, ProbeLog.headersLine, ProbeLog.clientErrLine]
  | ProbeOutcome.unexpected _ _ =>
    [ProbeLog.endpointLine, ProbeLog.headersLine, ProbeLog.unexpectedLine]

/-- Outcome of the real `client.login(token)` call. -/
inductive LoginOutcome where
  | success
  | loginFailure (text : String)
  | httpExc (e : HTTPExc)
deriving Repr

/-- Embedding of `DiscordProvisioner._authenticate`: normalize, reject an
empty token, run the diagnostic probe (its outcome is logged and
discarded), then log in and map failures.  Returns the authentication
result and the token handed to `client.login` (`none` when login was never
reached). -/
def authenticate (pf : String → Option ℚ) (jp : String → Option Json)
    (token : List Char) (probe : ProbeOutcome) (login : LoginOutcome) :
    Except AuthErr Unit × Option (List Char) :=
  let t := (normalizeToken token).1
  if t = [] then (Except.error AuthErr.emptyToken, none)
  else
    let _probeLogs := validateTokenWithRest probe
    match login with
    | LoginOutcome.success => (Except.ok (), some t)
    | LoginOutcome.loginFailure _ => (Except.error AuthErr.tokenRejected, some t)
    | LoginOutcome.httpExc e => (Except.error (buildAuthenticationError pf jp e), some t)

/- ===== Webhook notifier (`webhook.WebhookNotifier`) ===== -/

/-- Mirror of `config.WebhookConfig`. -/
structure WebhookConfigM where
  enabled : Bool
  url : Option String := none
  username : Option String := none
deriving Repr

/-- Mirror of `webhook.ProvisioningNotification`. -/
structure ProvisioningNotification where
  server_name : String
  invite_url : String
  message : String
deriving Repr

/-- Outcome of the webhook POST request. -/
inductive PostOutcome where
  | resp (status : Nat) (body : String)
  | timedOut
deriving Repr

/-- Typed `DiscordOperationError` shapes raised by the webhook notifier. -/
inductive WebhookErr where
  | badStatus (status : Nat) (body : String)
  | timedOut
deriving DecidableEq, Repr

/-- Observable HTTP-session actions of the notifier. -/
inductive WEffect where
  | createSession
  | post (url : String) (payload : ProvisioningNotification) (username : Option String)
deriving Repr

/-- Session field of the notifier: `none` before creation, otherwise
whether the session is closed. -/
def NotifierSession : Type := Option Bool

/-- Embedding of `WebhookNotifier._ensure_session`: create a fresh session
when none exists or the held one is closed. -/
def ensureSession (st : NotifierSession) : NotifierSession × List WEffect :=
  match st with
  | none => (some false, [WEffect.createSession])
  | some true => (some false, [WEffect.createSession])
  | some false => (some false, [])

/-- Embedding of `WebhookNotifier.notify`: return immediately when the
configuration is disabled or carries no URL (Python truthiness: `None` or
the empty string); otherwise ensure a session, post, and translate bad
statuses and timeouts into errors. -/
def webhookNotify (cfg : WebhookConfigM) (st : NotifierSession)
    (payload : ProvisioningNotification) (out : PostOutcome) :
    Except WebhookErr Unit × NotifierSession × List WEffect :=
  if cfg.enabled = false ∨ cfg.url = none ∨ cfg.url = some emptyStr then
    (Except.ok (), st, [])
  else
    let url := (cfg.url).getD emptyStr
    let (st2, effs) := ensureSession st
    let effs2 := effs ++ [WEffect.post url payload cfg.username]
    match out with
    | PostOutcome.resp status body =>
      if 400 ≤ status then (Except.error (WebhookErr.badStatus status body), st2, effs2)
      else (Except.ok (), st2, effs2)
    | PostOutcome.timedOut => (Except.error WebhookErr.timedOut, st2, effs2)

/- ===== Member-join monitor (`InvitationManager.monitor_member_join`) ===== -/

/-- Typed `DiscordOperationError` raised when the role grant fails. -/
inductive GrantErr where
  | grantFailed (status : Nat)
deriving DecidableEq, Repr

/-- Observable actions of the member-join monitor. -/
inductive MEffect where
  | subscribeJoin (guildId userId : Nat)
  | warnTimeout
  | grantCall (roleId : Nat)
deriving DecidableEq, Repr

/-- The slice of guild state the monitor consults: its identifier and the
member identifiers visible through `guild.get_member`. -/
structure GuildM where
  id : Nat
  members : List Nat
deriving Repr

/-- Outcome of `client.wait_for` on the member-join event: the filtered
member arrived, or `asyncio.TimeoutError`. -/
inductive WaitOutcome where
  | joined
  | timedOut
deriving Repr

/-- Lookup in the `_admin_roles` registry (`dict.get`), guild id to role
id. -/
def roleLookup (roles : List (Nat × Nat)) (gid : Nat) : Option Nat :=
  (roles.find? (fun p => p.1 == gid)).map (·.2)

/-- Embedding of `InvitationManager._grant_admin_to_member`: no-op unless
auto-grant is on and a role is registered for the member's guild; the
retried `add_roles` call is modelled by its outcome oracle. -/
def grantAdminToMember (grantAdmin : Bool) (roles : List (Nat × Nat))
    (guildId : Nat) (grantOutcome : Except Nat Unit) :
    Except GrantErr Unit × List MEffect :=
  if grantAdmin = false then (Except.ok (), [])
  else
    match roleLookup roles guildId with
    | none => (Except.ok (), [])
    | some roleId =>
      match grantOutcome with
      | Except.ok _ => (Except.ok (), [MEffect.grantCall roleId])
      | Except.error s => (Except.error (GrantErr.grantFailed s), [MEffect.grantCall roleId])

/-- Embedding of `InvitationManager.monitor_member_join`.  The guard uses
Python truthiness (`not self._invitation.user_id`: absent or zero).
Returns the granted member (or `none`) and the observable actions. -/
def monitorMemberJoin (grantAdmin : Bool) (userId : Option Nat)
    (roles : List (Nat × Nat)) (guild : GuildM) (wait : WaitOutcome)
    (grantOutcome : Except Nat Unit) :
    Except GrantErr (Option Nat) × List MEffect :=
  if grantAdmin = false ∨ userId = none ∨ userId = some 0 then
    (Except.ok none, [])
  else
    let uid := userId.getD 0
    if uid ∈ guild.members then
      let g := grantAdminToMember grantAdmin roles guild.id grantOutcome
      (g.1.map (fun _ => some uid), g.2)
    else
      match wait with
      | WaitOutcome.timedOut =>
        (Except.ok none, [MEffect.subscribeJoin guild.id uid, MEffect.warnTimeout])
      | WaitOutcome.joined =>
        let g := grantAdminToMember grantAdmin roles guild.id grantOutcome
        (g.1.map (fun _ => some uid), MEffect.subscribeJoin guild.id uid :: g.2)

/- ===== Session facade (`_ProvisioningClient` / `DiscordProvisioner`) ===== -/

/-- Observable actions of one provisioning session. -/
inductive SEffect where
  | friendRequestCall
  | provisionCall (i : Nat)
  | notifyCall (i : Nat)
  | closeClient
  | closeWebhook
deriving DecidableEq, Repr

/-- Aggregate state of one `_execute_provisioning` run: the results
collected so far (`self._results`), the recorded exception
(`self._exception`), and the observable actions in order. -/
structure SessRun (ε ρ : Type) where
  results : List ρ
  failure : Option ε
  effects : List SEffect
deriving Repr

/-- Loop of `_execute_provisioning` over the requested servers, starting at
request index `i` with `n` requests remaining.  `pout i` is the outcome of
`_provision_server` for request `i`; `nout i` is the outcome of the webhook
notification for request `i` (consulted only when a webhook collaborator is
configured).  A failure stops the loop, records the error, and keeps the
results already appended. -/
def runServers (pout : Nat → Except ε ρ) (nout : Nat → Except ε Unit)
    (useWebhook : Bool) : Nat → Nat → SessRun ε ρ
  | _, 0 => ⟨[], none, []⟩
  | i, n + 1 =>
    match pout i with
    | Except.error e => ⟨[], some e, [SEffect.provisionCall i]⟩
    | Except.ok r =>
      if useWebhook then
        match nout i with
        | Except.error e => ⟨[r], some e, [SEffect.provisionCall i, SEffect.notifyCall i]⟩
        | Except.ok _ =>
          let rest := runServers pout nout useWebhook (i + 1) n
          ⟨r :: rest.results, rest.failure,
            SEffect.provisionCall i :: SEffect.notifyCall i :: rest.effects⟩
      else
        let rest := runServers pout nout useWebhook (i + 1) n
        ⟨r :: rest.results, rest.failure, SEffect.provisionCall i :: rest.effects⟩

/-- Embedding of `_ProvisioningClient._execute_provisioning`: optional
friend request first (its failure also stops the session), then servers in
request order; any recorded exception stops the loop; the `finally` block
closes the client. -/
def executeProvisioning (friendReq : Option (Except ε Unit))
    (pout : Nat → Except ε ρ) (nout : Nat → Except ε Unit)
    (useWebhook : Bool) (n : Nat) : SessRun ε ρ :=
  match friendReq with
  | some (Except.error e) =>
    ⟨[], some e, [SEffect.friendRequestCall, SEffect.closeClient]⟩
  | some (Except.ok _) =>
    let run := runServers pout nout useWebhook 0 n
    ⟨run.results, run.failure,
      SEffect.friendRequestCall :: run.effects ++ [SEffect.closeClient]⟩
  | none =>
    let run := runServers pout nout useWebhook 0 n
    ⟨run.results, run.failure, run.effects ++ [SEffect.closeClient]⟩

/-- Errors surfaced by `DiscordProvisioner.execute`: an authentication
failure or the exception recorded by the provisioning task. -/
inductive ExecErr (ε : Type) where
  | auth (e : AuthErr)
  | sess (e : ε)
deriving Repr

/-- Embedding of `DiscordProvisioner.execute`: authenticate, run the
provisioning client, and in every case run the `finally` teardown (close
the client again, close the webhook collaborator when present) before the
recorded exception propagates or the results are returned. -/
def executeSession (authOutcome : Except AuthErr Unit)
    (friendReq : Option (Except ε Unit)) (pout : Nat → Except ε ρ)
    (nout : Nat → Except ε Unit) (useWebhook : Bool) (n : Nat) :
    Except (ExecErr ε) (List ρ) × List SEffect :=
  let teardown := SEffect.closeClient ::
    (if useWebhook then [SEffect.closeWebhook] else [])
  match authOutcome with
  | Except.error e => (Except.error (ExecErr.auth e), teardown)
  | Except.ok _ =>
    let run := executeProvisioning friendReq pout nout useWebhook n
    match run.failure with
    | some e => (Except.error (ExecErr.sess e), run.effects ++ teardown)
    | none => (Except.ok run.results, run.effects ++ teardown)

/- ===== Derived predicates and sample values ===== -/

/-- A token free of every artifact normalization removes: no edge
whitespace, no edge quote characters, no embedded newline or
carriage-return, no case-insensitive leading bot-style marker, no
zero-width space. -/
def cleanToken (t : List Char) : Prop :=
  pyStrip t = t ∧ pyStripChars tokenQuoteChars t = t ∧ nlChar ∉ t ∧ crChar ∉ t ∧
    ¬ botGate t ∧ zwsChar ∉ t

instance (t : List Char) : Decidable (cleanToken t) := by
  unfold cleanToken; infer_instance

def botBotSample : List Char := ("Bot Bot x").data

def cleanNormSample : List Char := [spaceChar, spaceChar] ++ ("abc").data ++ [spaceChar]

def c9Input : List Char :=
  [spaceChar, spaceChar, quoteChar] ++ ("Bot abc").data ++ [nlChar] ++
    ("123").data ++ [quoteChar, spaceChar, spaceChar]

def c9Output : List Char := ("abc123").data

def truncSample : List Char := List.replicate 94 (Char.ofNat 97) ++ [spaceChar, Char.ofNat 98]

def truncOnce : List Char := List.replicate 94 (Char.ofNat 97) ++ [spaceChar]

def truncTwice : List Char := List.replicate 94 (Char.ofNat 97)

def sanitizeSample : List Char := ("Alpha!! Server").data

def sanitizeOutSample : List Char := ("Alpha Server").data

def paddedNumericSample : List Char := [spaceChar] ++ ("12345").data ++ [spaceChar]

def numericSample : List Char := ("12345").data

def fiveStr : String := "5"

def pfSample : String → Option ℚ := fun s => if s = fiveStr then some 5 else none

def jpSample : String → Option Json := fun _ => some (Json.jobj [(retryAfterField, Json.jnum 7)])

def respSample : HTTPResp := { headers := [(retryAfterKey, fiveStr)] }

def excSample : HTTPExc :=
  { status := 429, response := some respSample, text := some ("ignored") }

/-- Operation that answers HTTP 429 on every attempt. -/
def alwaysRateLimited : Nat → Except HTTPExc Unit := fun _ => Except.error { status := 429 }

/-- Operation that answers HTTP 429 on the first two attempts and then
succeeds. -/
def rateLimitedTwice : Nat → Except HTTPExc Unit :=
  fun i => if i < 2 then Except.error { status := 429 } else Except.ok ()

/-- Operation that answers HTTP 500 on every attempt. -/
def alwaysServerError : Nat → Except HTTPExc Unit := fun _ => Except.error { status := 500 }

def payloadSample : ProvisioningNotification :=
  { server_name := "Alpha", invite_url := "https://invite.example/x", message := "done" }

def disabledCfg : WebhookConfigM := { enabled := false, url := some ("https://hook.example/y") }

def poutSample : Nat → Except Nat Nat := fun j => if j = 1 then Except.error 7 else Except.ok j

def noutSample : Nat → Except Nat Unit := fun _ => Except.ok ()

def rsSample : Nat → Nat := fun j => j

instance {ε α : Type} [DecidableEq ε] [DecidableEq α] : DecidableEq (Except ε α) := fun x y =>
  match x, y with
  | Except.ok a, Except.ok b =>
    if h : a = b then isTrue (by rw [h]) else isFalse (fun hc => h (by injection hc))
  | Except.ok _, Except.error _ => isFalse (fun hc => by injection hc)
  | Except.error _, Except.ok _ => isFalse (fun hc => by injection hc)
  | Except.error e, Except.error f =>
    if h : e = f then isTrue (by rw [h]) else isFalse (fun hc => h (by injection hc))

/- ===== Claim theorems ===== -/

/-- C9: normalization removes exactly the listed transformations; on the
literal input consisting of two spaces, a single quote, `Bot abc`, a
newline, `123`, a closing single quote and two spaces, `_normalize_token`
returns `abc123`, having trimmed whitespace, removed one layer of
surrounding quotes, removed the newline and removed the bot-style marker
(and nothing else). -/
theorem normalize_token_literal_example :
    normalizeToken c9Input =
      (c9Output, [NormNote.trimmedWhitespace, NormNote.surroundingQuotes,
        NormNote.newlines, NormNote.botTag]) := by
  decide

/-- C2 (counterexample): token normalization is not idempotent; on the
input `Bot Bot x` one pass yields `Bot x` and a second pass strips the
remaining bot-style marker again, yielding `x`. -/
theorem normalize_token_not_idempotent :
    (normalizeToken (normalizeToken botBotSample).1).1 ≠ (normalizeToken botBotSample).1 := by
  decide

/-- C1 (code-bug evidence): with the default parameters (5 attempts, base
delay 2, factor 2), an operation that is rate-limited on every attempt
makes `with_rate_limit_retry` sleep 4 times with delays 2, 4, 8, 16 and
then re-raise the final `HTTPException` with status 429 — it does not raise
`RateLimitError`, whose raise statement after the loop is unreachable; an
operation rate-limited exactly twice succeeds after sleeping 2 and 4; a
non-rate-limit failure propagates immediately without sleeping. -/
theorem with_rate_limit_retry_behavior :
    withRateLimitRetry alwaysRateLimited 5 2 2 =
      (RetryResult.httpError { status := 429 }, [2, 4, 8, 16]) ∧
    withRateLimitRetry rateLimitedTwice 5 2 2 = (RetryResult.ok (), [2, 4]) ∧
    withRateLimitRetry alwaysServerError 5 2 2 =
      (RetryResult.httpError { status := 500 }, []) := by
  refine ⟨?_, ?_, ?_⟩ <;> norm_num [withRateLimitRetry, retryGo, alwaysRateLimited,
    rateLimitedTwice, alwaysServerError]

/-- C5 (counterexample): sanitization is not a fixed point of itself; on
the 96-character input of 94 letters, a space and a letter, truncation to
95 characters leaves a trailing space that a second sanitization pass
trims away.  The input is all-ASCII, so the abstract Unicode word table
agrees with its ASCII portion `asciiWordChar` on every character
involved. -/
theorem sanitize_server_name_not_idempotent :
    sanitizeServerName asciiWordChar truncSample = Except.ok truncOnce ∧
    sanitizeServerName asciiWordChar truncOnce = Except.ok truncTwice ∧
    truncTwice ≠ truncOnce := by
  refine ⟨by decide, by decide, by decide⟩

/-- C8 (counterexample): `parse_target_user` strips surrounding whitespace
first, so the input consisting of a space, `12345` and a space is neither
purely numeric nor shaped like `name#1234`, yet it parses to an
identifier-based reference instead of raising `ConfigurationError`.  The
input is all-ASCII, so the abstract Unicode decimal-digit table agrees
with its ASCII portion `asciiDigitVal` on every character involved. -/
theorem parse_target_user_unstripped_counterexample :
    isNumericIdStr asciiDigitVal paddedNumericSample = false ∧
    isNameDiscStr asciiDigitVal paddedNumericSample = false ∧
    parseTargetUser asciiDigitVal paddedNumericSample =
      Except.ok { raw_identifier := numericSample, user_id := some 12345 } := by
  refine ⟨by decide, by decide, by decide⟩

theorem dropTrailing_front (p : Char → Bool) (l : List Char) : dropTrailing p l <+: l := by
  unfold dropTrailing
  have h := List.reverse_prefix.mpr (@List.dropWhile_suffix Char l.reverse p)
  simpa using h

theorem dropTrailing_sublist (p : Char → Bool) (l : List Char) :
    (dropTrailing p l).Sublist l :=
  (dropTrailing_front p l).sublist

theorem pyStrip_sublist (l : List Char) : (pyStrip l).Sublist l := by
  unfold pyStrip
  exact (dropTrailing_sublist _ _).trans (List.dropWhile_sublist _)

theorem dropWhile_idem (p : Char → Bool) (l : List Char) :
    List.dropWhile p (List.dropWhile p l) = List.dropWhile p l := by
  cases h : List.dropWhile p l with
  | nil => rfl
  | cons c rest =>
    have hc : ¬ p c = true := by
      have h0 := List.dropWhile_get_zero_not p l (by rw [h]; simp)
      simpa [h] using h0
    rw [List.dropWhile_cons, if_neg hc]

theorem dropTrailing_idem (p : Char → Bool) (l : List Char) :
    dropTrailing p (dropTrailing p l) = dropTrailing p l := by
  unfold dropTrailing
  rw [List.reverse_reverse, dropWhile_idem]

theorem dropWhile_eq_self_of_prefix (p : Char → Bool) {m x : List Char}
    (hpre : m <+: x) (hx : List.dropWhile p x = x) :
    List.dropWhile p m = m := by
  cases m with
  | nil => rfl
  | cons c m2 =>
    obtain ⟨t, ht⟩ := hpre
    have hc : ¬ p c = true := by
      intro hpc
      have hxc : x = c :: (m2 ++ t) := by rw [← ht]; rfl
      have h1 : List.dropWhile p x = List.dropWhile p (m2 ++ t) := by
        rw [hxc, List.dropWhile_cons_of_pos hpc]
      have h2 : (List.dropWhile p (m2 ++ t)).length ≤ (m2 ++ t).length :=
        (List.dropWhile_sublist _).length_le
      rw [hx] at h1
      rw [← h1, hxc] at h2
      simp at h2
    rw [List.dropWhile_cons, if_neg hc]

theorem pyStrip_idem (l : List Char) : pyStrip (pyStrip l) = pyStrip l := by
  unfold pyStrip
  have hxx : List.dropWhile isPySpace (List.dropWhile isPySpace l) =
      List.dropWhile isPySpace l := dropWhile_idem _ _
  have h1 : List.dropWhile isPySpace (dropTrailing isPySpace (List.dropWhile isPySpace l)) =
      dropTrailing isPySpace (List.dropWhile isPySpace l) :=
    dropWhile_eq_self_of_prefix _ (dropTrailing_front _ _) hxx
  rw [h1, dropTrailing_idem]

theorem pyStripChars_length_le {cs : List Char} {c : Char} {rest : List Char} (hc : c ∈ cs) :
    (pyStripChars cs (c :: rest)).length ≤ rest.length := by
  unfold pyStripChars
  rw [List.dropWhile_cons_of_pos (by simpa using hc)]
  exact ((dropTrailing_sublist _ _).trans (List.dropWhile_sublist _)).length_le

theorem stepTrim_of_stripped {t : List Char} (h : pyStrip t = t) : stepTrim t = (t, []) := by
  simp [stepTrim, h]

theorem stepSurroundingQuotes_of_clean {t : List Char}
    (h : pyStripChars tokenQuoteChars t = t) : stepSurroundingQuotes t = (t, []) := by
  unfold stepSurroundingQuotes
  rw [if_neg]
  rintro ⟨hlen, _hmatch, hq⟩
  cases t with
  | nil => simp at hlen
  | cons c rest =>
    have hc : c ∈ tokenQuoteChars := by
      rcases hq with hq | hq <;> simp [List.head?] at hq <;>
        simp [tokenQuoteChars, hq]
    have hle := @pyStripChars_length_le tokenQuoteChars c rest hc
    rw [h] at hle
    simp at hle

theorem stepEdgeQuotes_of_clean {t : List Char}
    (h : pyStripChars tokenQuoteChars t = t) : stepEdgeQuotes t = (t, []) := by
  simp [stepEdgeQuotes, h]

theorem stepNewlines_of_clean {t : List Char} (h3 : nlChar ∉ t) (h4 : crChar ∉ t) :
    stepNewlines t = (t, []) := by
  have e1 : t.filter (fun c => decide (c ≠ nlChar)) = t :=
    List.filter_eq_self.mpr (fun a ha => by
      simp only [decide_eq_true_eq]
      intro he; exact h3 (he ▸ ha))
  have e2 : t.filter (fun c => decide (c ≠ crChar)) = t :=
    List.filter_eq_self.mpr (fun a ha => by
      simp only [decide_eq_true_eq]
      intro he; exact h4 (he ▸ ha))
  simp only [stepNewlines]
  rw [e1, e2]
  simp

theorem stepBotTag_of_clean {t : List Char} (h5 : ¬ botGate t) : stepBotTag t = (t, []) := by
  simp [stepBotTag, h5]

theorem stepZws_of_clean {t : List Char} (h6 : zwsChar ∉ t) : stepZws t = (t, []) := by
  simp [stepZws, h6]

theorem normalizeToken_fixed {t : List Char} (h : cleanToken t) :
    normalizeToken t = (t, []) := by
  obtain ⟨h1, h2, h3, h4, h5, h6⟩ := h
  simp only [normalizeToken, stepTrim_of_stripped h1, stepSurroundingQuotes_of_clean h2,
    stepEdgeQuotes_of_clean h2, stepNewlines_of_clean h3 h4, stepBotTag_of_clean h5,
    stepZws_of_clean h6, List.append_nil]

/-- C2 (amended): token normalization is idempotent on every input whose
normalized form is free of residual artifacts (edge whitespace, edge
quote characters, embedded newline or carriage-return characters, a
case-insensitive leading bot-style marker, zero-width spaces); an input
whose normalized form still carries such an artifact — for example a
doubled bot-style marker — can normalize further on a second pass. -/
theorem normalize_token_idempotent_on_clean (s : List Char)
    (h : cleanToken (normalizeToken s).1) :
    (normalizeToken (normalizeToken s).1).1 = (normalizeToken s).1 := by
  rw [normalizeToken_fixed h]

theorem normalize_token_idempotent_on_clean_witness :
    cleanToken (normalizeToken cleanNormSample).1 ∧
      (normalizeToken (normalizeToken cleanNormSample).1).1 =
        (normalizeToken cleanNormSample).1 :=
  ⟨by decide, normalize_token_idempotent_on_clean cleanNormSample (by decide)⟩

/-- C5 (amended): for every Unicode word table and every input,
`sanitize_server_name` raises `ConfigurationError` exactly when the input
reduces to empty after removing disallowed characters and trimming;
otherwise the returned name contains only allowed characters and has
length at most 95, and re-sanitizing it returns it unchanged whenever the
cleaned string fit in 95 characters before truncation (truncation can
leave trailing whitespace that a second pass trims, so sanitization is not
a fixed point in general). -/
theorem sanitize_server_name_spec (isWord : Char → Bool) (name : List Char) :
    (sanitizeServerName isWord name = Except.error ConfigErr.emptyServerName ↔
      pyStrip (name.filter (isAllowedServerChar isWord)) = []) ∧
    (∀ out, sanitizeServerName isWord name = Except.ok out →
      (∀ c ∈ out, isAllowedServerChar isWord c = true) ∧ out.length ≤ 95 ∧
      ((pyStrip (name.filter (isAllowedServerChar isWord))).length ≤ 95 →
        sanitizeServerName isWord out = Except.ok out)) := by
  by_cases hc : pyStrip (name.filter (isAllowedServerChar isWord)) = []
  · constructor
    · simp [sanitizeServerName, hc]
    · intro out hout
      simp [sanitizeServerName, hc] at hout
  · constructor
    · simp [sanitizeServerName, hc]
    · intro out hout
      simp only [sanitizeServerName] at hout
      rw [if_neg hc] at hout
      injection hout with hout
      refine ⟨?_, ?_, ?_⟩
      · intro ch hch
        rw [← hout] at hch
        have h1 : ch ∈ pyStrip (name.filter (isAllowedServerChar isWord)) :=
          List.take_subset _ _ hch
        have h2 : ch ∈ name.filter (isAllowedServerChar isWord) :=
          (pyStrip_sublist _).subset h1
        exact List.of_mem_filter h2
      · rw [← hout]
        simp [List.length_take]
      · intro h95
        rw [← hout, List.take_of_length_le h95]
        have hfix : (pyStrip (name.filter (isAllowedServerChar isWord))).filter
              (isAllowedServerChar isWord) =
            pyStrip (name.filter (isAllowedServerChar isWord)) :=
          List.filter_eq_self.mpr (fun a ha =>
            List.of_mem_filter ((pyStrip_sublist _).subset ha))
        simp only [sanitizeServerName, hfix, pyStrip_idem]
        rw [if_neg hc, List.take_of_length_le h95]

theorem sanitize_server_name_spec_witness :
    sanitizeServerName asciiWordChar sanitizeOutSample = Except.ok sanitizeOutSample :=
  ((sanitize_server_name_spec asciiWordChar sanitizeSample).2 sanitizeOutSample
    (by decide)).2.2 (by decide)

/-- C8 (amended): for every Unicode decimal-digit table,
`parse_target_user` classifies the whitespace-trimmed input into exactly
one of three outcomes: a purely numeric trimmed string of at least 5
decimal digits yields an identifier-based reference (user id set, name and
discriminator unset); a trimmed string shaped `name#1234` yields a
name/discriminator reference (user id unset); any other trimmed string
raises `ConfigurationError`.  (The counterexample shows the classification
is by the trimmed input, not the raw input.) -/
theorem parse_target_user_classification (digitVal : Char → Option Nat) (s : List Char) :
    (isNumericIdStr digitVal (pyStrip s) = true →
      parseTargetUser digitVal s =
        Except.ok { raw_identifier := pyStrip s, user_id := some (digitsToNat digitVal (pyStrip s)) }) ∧
    (isNumericIdStr digitVal (pyStrip s) = false → isNameDiscStr digitVal (pyStrip s) = true →
      parseTargetUser digitVal s =
        Except.ok { raw_identifier := pyStrip s, username := some (hashName (pyStrip s)), discriminator := some (hashDisc (pyStrip s)) }) ∧
    (isNumericIdStr digitVal (pyStrip s) = false → isNameDiscStr digitVal (pyStrip s) = false →
      (parseTargetUser digitVal s = Except.error ConfigErr.emptyTargetUser ∨
        parseTargetUser digitVal s = Except.error ConfigErr.badTargetFormat)) := by
  refine ⟨?_, ?_, ?_⟩
  · intro hnum
    have h5 : 5 ≤ (pyStrip s).length ∧ (pyStrip s).all (isDigitChar digitVal) = true := by
      simpa [isNumericIdStr] using hnum
    have hne : pyStrip s ≠ [] := by
      intro h0; rw [h0] at h5; simp at h5
    simp only [parseTargetUser]
    rw [if_neg hne, if_pos h5]
  · intro hnum hnd
    simp only [isNameDiscStr, Bool.and_eq_true, decide_eq_true_eq] at hnd
    obtain ⟨⟨⟨hmem, hname⟩, hlen⟩, hdig⟩ := hnd
    have hne : pyStrip s ≠ [] := by
      intro h0; rw [h0] at hmem; simp at hmem
    have hnum2 : ¬ (5 ≤ (pyStrip s).length ∧ (pyStrip s).all (isDigitChar digitVal) = true) := by
      intro hh
      have ht : isNumericIdStr digitVal (pyStrip s) = true := by
        simp [isNumericIdStr, hh.1, hh.2]
      rw [hnum] at ht; exact Bool.false_ne_true ht
    have hdne : hashDisc (pyStrip s) ≠ [] := by
      intro h0; rw [h0] at hlen; simp at hlen
    have hgood : ¬ (hashName (pyStrip s) = [] ∨ hashDisc (pyStrip s) = [] ∨
        ¬ ((hashDisc (pyStrip s)).length = 4 ∧
          (hashDisc (pyStrip s)).all (isDigitChar digitVal) = true)) := by
      push_neg
      exact ⟨hname, hdne, hlen, hdig⟩
    simp only [parseTargetUser]
    rw [if_neg hne, if_neg hnum2, if_pos hmem, if_neg hgood]
  · intro hnum hnd
    by_cases hne : pyStrip s = []
    · left; simp [parseTargetUser, hne]
    · right
      have hnum2 : ¬ (5 ≤ (pyStrip s).length ∧ (pyStrip s).all (isDigitChar digitVal) = true) := by
        intro hh
        have ht : isNumericIdStr digitVal (pyStrip s) = true := by
          simp [isNumericIdStr, hh.1, hh.2]
        rw [hnum] at ht; exact Bool.false_ne_true ht
      by_cases hmem : hashChar ∈ pyStrip s
      · have hbad : hashName (pyStrip s) = [] ∨ hashDisc (pyStrip s) = [] ∨
            ¬ ((hashDisc (pyStrip s)).length = 4 ∧
              (hashDisc (pyStrip s)).all (isDigitChar digitVal) = true) := by
          by_contra hcon
          push_neg at hcon
          obtain ⟨hn1, hn2, hn3⟩ := hcon
          have ht : isNameDiscStr digitVal (pyStrip s) = true := by
            unfold isNameDiscStr
            rw [decide_eq_true hmem, decide_eq_true hn1, decide_eq_true hn3.1, hn3.2]
            rfl
          rw [hnd] at ht; exact Bool.false_ne_true ht
        simp only [parseTargetUser]
        rw [if_neg hne, if_neg hnum2, if_pos hmem, if_pos hbad]
      · simp only [parseTargetUser]
        rw [if_neg hne, if_neg hnum2, if_neg hmem]

theorem parse_target_user_classification_witness :
    parseTargetUser asciiDigitVal numericSample =
      Except.ok { raw_identifier := pyStrip numericSample, user_id := some (digitsToNat asciiDigitVal (pyStrip numericSample)) } :=
  (parse_target_user_classification asciiDigitVal numericSample).1 (by decide)

/-- C3: the diagnostic identity probe is total — it returns its debug log
for every outcome (HTTP 200, non-200 status, timeout, network failure, or
any other exception) without raising — and its outcome never changes
downstream behaviour: two authentication runs that differ only in the
probe outcome produce identical login steps and authentication results. -/
theorem probe_outcome_no_influence (pf : String → Option ℚ) (jp : String → Option Json)
    (token : List Char) (p1 p2 : ProbeOutcome) (login : LoginOutcome) :
    authenticate pf jp token p1 login = authenticate pf jp token p2 login ∧
    (validateTokenWithRest p1).head? = some ProbeLog.endpointLine := by
  constructor
  · rfl
  · cases p1 <;> rfl

/-- C10: when the webhook configuration is disabled or carries no URL,
`notify` returns normally, performs no HTTP request, raises no error, and
leaves the notifier's session state unchanged. -/
theorem webhook_notify_disabled_noop (cfg : WebhookConfigM) (st : NotifierSession)
    (payload : ProvisioningNotification) (out : PostOutcome)
    (h : cfg.enabled = false ∨ cfg.url = none) :
    webhookNotify cfg st payload out = (Except.ok (), st, []) := by
  unfold webhookNotify
  rw [if_pos]
  rcases h with h | h
  · exact Or.inl h
  · exact Or.inr (Or.inl h)

theorem webhook_notify_disabled_noop_witness :
    webhookNotify disabledCfg none payloadSample PostOutcome.timedOut =
      (Except.ok (), none, []) :=
  webhook_notify_disabled_noop disabledCfg none payloadSample PostOutcome.timedOut (Or.inl rfl)

/-- C7: retry-after extraction is total by construction and degrades to
`none` on every malformed shape — missing header with missing or empty
body, unparseable header with missing body, malformed JSON body, non-dict
JSON body, dict body without the retry field, or a value `float` rejects —
while a parseable non-empty header value is preferred regardless of the
body. -/
theorem retry_after_extraction_spec (pf : String → Option ℚ) (jp : String → Option Json)
    (exc : HTTPExc) :
    (∀ resp h q, exc.response = some resp →
      getHeaderVal resp.headers retryAfterKey = some h → h ≠ emptyStr → pf h = some q →
      retryAfterFromException pf jp exc = some q) ∧
    (exc.response = none → (exc.text = none ∨ exc.text = some emptyStr) →
      retryAfterFromException pf jp exc = none) ∧
    (∀ t, exc.response = none → exc.text = some t → t ≠ emptyStr → jp t = none →
      retryAfterFromException pf jp exc = none) ∧
    (∀ t j, exc.response = none → exc.text = some t → t ≠ emptyStr → jp t = some j →
      (∀ fields, j ≠ Json.jobj fields) →
      retryAfterFromException pf jp exc = none) ∧
    (∀ t fields, exc.response = none → exc.text = some t → t ≠ emptyStr →
      jp t = some (Json.jobj fields) → jsonGet fields retryAfterField = none →
      retryAfterFromException pf jp exc = none) ∧
    (∀ t fields v, exc.response = none → exc.text = some t → t ≠ emptyStr →
      jp t = some (Json.jobj fields) → jsonGet fields retryAfterField = some v →
      v ≠ Json.null → pyFloatOfJson pf v = none →
      retryAfterFromException pf jp exc = none) ∧
    (∀ resp h, exc.response = some resp →
      getHeaderVal resp.headers retryAfterKey = some h → pf h = none → exc.text = none →
      retryAfterFromException pf jp exc = none) := by
  refine ⟨?_, ?_, ?_, ?_, ?_, ?_, ?_⟩
  · intro resp h q hresp hget hne hpf
    simp [retryAfterFromException, hresp, hget, hne, hpf]
  · rintro hresp (ht | ht) <;> simp [retryAfterFromException, hresp, ht]
  · intro t hresp htext hne hjp
    simp [retryAfterFromException, hresp, htext, hne, hjp]
  · intro t j hresp htext hne hjp hnd
    cases j with
    | jobj fields => exact absurd rfl (hnd fields)
    | null => simp [retryAfterFromException, hresp, htext, hne, hjp]
    | jbool b => simp [retryAfterFromException, hresp, htext, hne, hjp]
    | jnum q => simp [retryAfterFromException, hresp, htext, hne, hjp]
    | jstr v => simp [retryAfterFromException, hresp, htext, hne, hjp]
    | jarr xs => simp [retryAfterFromException, hresp, htext, hne, hjp]
  · intro t fields hresp htext hne hjp hget
    simp [retryAfterFromException, hresp, htext, hne, hjp, hget]
  · intro t fields v hresp htext hne hjp hget hnn hfloat
    cases v with
    | null => exact absurd rfl hnn
    | jbool b => simp [pyFloatOfJson] at hfloat
    | jnum q => simp [pyFloatOfJson] at hfloat
    | jstr w =>
      simp [retryAfterFromException, hresp, htext, hne, hjp, hget, pyFloatOfJson] at hfloat ⊢
      exact hfloat
    | jarr xs => simp [retryAfterFromException, hresp, htext, hne, hjp, hget, pyFloatOfJson]
    | jobj fs => simp [retryAfterFromException, hresp, htext, hne, hjp, hget, pyFloatOfJson]
  · intro resp h hresp hget hpf htext
    by_cases hne : h = emptyStr
    · simp [retryAfterFromException, hresp, hget, hne, htext]
    · simp [retryAfterFromException, hresp, hget, hne, hpf, htext]

theorem retry_after_extraction_spec_witness :
    retryAfterFromException pfSample jpSample excSample = some 5 :=
  (retry_after_extraction_spec pfSample jpSample excSample).1 respSample fiveStr 5 rfl
    (by decide) (by decide) (by simp [pfSample])

theorem subscribe_not_in_grant (ga : Bool) (roles : List (Nat × Nat)) (gid : Nat)
    (go : Except Nat Unit) (g u : Nat) :
    MEffect.subscribeJoin g u ∉ (grantAdminToMember ga roles gid go).2 := by
  unfold grantAdminToMember
  by_cases h : ga = false
  · simp [h]
  · rw [if_neg h]
    cases hr : roleLookup roles gid <;> cases go <;> simp [hr]

/-- C6: `monitor_member_join` returns nothing and performs no action when
auto-grant is disabled or no resolved numeric identifier exists; when the
target is already a member it never creates an event subscription and (with
a registered role and a successful grant call) grants the role immediately;
and when the join wait times out it logs a warning and returns without
error, leaving the registered role ungranted. -/
theorem monitor_member_join_spec (grantAdmin : Bool) (userId : Option Nat)
    (roles : List (Nat × Nat)) (guild : GuildM) (wait : WaitOutcome)
    (go : Except Nat Unit) :
    (grantAdmin = false ∨ userId = none →
      monitorMemberJoin grantAdmin userId roles guild wait go = (Except.ok none, [])) ∧
    (∀ uid, userId = some uid → uid ≠ 0 → uid ∈ guild.members →
      (∀ g u, MEffect.subscribeJoin g u ∉
        (monitorMemberJoin grantAdmin userId roles guild wait go).2) ∧
      (grantAdmin = true → ∀ rid, roleLookup roles guild.id = some rid →
        go = Except.ok () →
        monitorMemberJoin grantAdmin userId roles guild wait go =
          (Except.ok (some uid), [MEffect.grantCall rid]))) ∧
    (∀ uid, userId = some uid → uid ≠ 0 → uid ∉ guild.members → grantAdmin = true →
      wait = WaitOutcome.timedOut →
      monitorMemberJoin grantAdmin userId roles guild wait go =
        (Except.ok none, [MEffect.subscribeJoin guild.id uid, MEffect.warnTimeout])) := by
  refine ⟨?_, ?_, ?_⟩
  · intro h
    unfold monitorMemberJoin
    rw [if_pos]
    rcases h with h | h
    · exact Or.inl h
    · exact Or.inr (Or.inl h)
  · intro uid huid hnz hmem
    by_cases hga : grantAdmin = false
    · constructor
      · intro g u
        have hm : monitorMemberJoin grantAdmin userId roles guild wait go =
            (Except.ok none, []) := by
          unfold monitorMemberJoin; rw [if_pos (Or.inl hga)]
        rw [hm]; simp
      · intro hga2
        rw [hga2] at hga; exact Bool.noConfusion hga
    · have hguard : ¬(grantAdmin = false ∨ userId = none ∨ userId = some 0) := by
        rintro (h | h | h)
        · exact hga h
        · rw [huid] at h; exact Option.noConfusion h
        · rw [huid] at h
          exact hnz (Option.some.inj h)
      constructor
      · intro g u
        unfold monitorMemberJoin
        rw [if_neg hguard]
        simp only [huid, Option.getD_some]
        rw [if_pos hmem]
        exact subscribe_not_in_grant _ _ _ _ _ _
      · intro hga2 rid hrole hgo
        unfold monitorMemberJoin
        rw [if_neg hguard]
        simp only [huid, Option.getD_some]
        rw [if_pos hmem]
        simp [grantAdminToMember, hga2, hrole, hgo, Except.map]
  · intro uid huid hnz hnmem hga hwait
    have hguard : ¬(grantAdmin = false ∨ userId = none ∨ userId = some 0) := by
      rintro (h | h | h)
      · rw [hga] at h; exact Bool.noConfusion h
      · rw [huid] at h; exact Option.noConfusion h
      · rw [huid] at h
        exact hnz (Option.some.inj h)
    unfold monitorMemberJoin
    rw [if_neg hguard]
    simp only [huid, Option.getD_some]
    rw [if_neg hnmem, hwait]

theorem monitor_member_join_spec_witness :
    monitorMemberJoin true (some 42) [(7, 99)] { id := 7, members := [42] }
      WaitOutcome.timedOut (Except.ok ()) = (Except.ok (some 42), [MEffect.grantCall 99]) :=
  ((monitor_member_join_spec true (some 42) [(7, 99)] { id := 7, members := [42] }
      WaitOutcome.timedOut (Except.ok ())).2.1 42 rfl (by decide) (by decide)).2 rfl 99
    (by decide) rfl


theorem runServers_stop_at_failure {ε ρ : Type} (pout : Nat → Except ε ρ)
    (nout : Nat → Except ε Unit) (rs : Nat → ρ) (e : ε) :
    ∀ (i n i0 : Nat), i < n →
    (∀ j, i0 ≤ j → j < i0 + i → pout j = Except.ok (rs j)) →
    (∀ j, i0 ≤ j → j < i0 + i → nout j = Except.ok ()) →
    pout (i0 + i) = Except.error e →
    runServers pout nout true i0 n =
      ⟨(List.range' i0 i).map rs, some e,
        (List.range' i0 i).flatMap (fun j =>
          [SEffect.provisionCall j, SEffect.notifyCall j]) ++
          [SEffect.provisionCall (i0 + i)]⟩ := by
  intro i
  induction i with
  | zero =>
    intro n i0 hn hp hq he
    cases n with
    | zero => omega
    | succ m =>
      rw [Nat.add_zero] at he
      simp [runServers, he]
  | succ k ih =>
    intro n i0 hn hp hq he
    cases n with
    | zero => omega
    | succ m =>
      have hp0 : pout i0 = Except.ok (rs i0) := hp i0 (Nat.le_refl i0) (by omega)
      have hq0 : nout i0 = Except.ok () := hq i0 (Nat.le_refl i0) (by omega)
      have hrec := ih m (i0 + 1) (by omega)
        (fun j h1 h2 => hp j (by omega) (by omega))
        (fun j h1 h2 => hq j (by omega) (by omega))
        (by
          have h2 : i0 + (k + 1) = i0 + 1 + k := by omega
          rw [h2] at he; exact he)
      have hik : i0 + (k + 1) = i0 + 1 + k := by omega
      simp only [runServers, hp0, hq0, hrec, if_true]
      rw [List.range'_succ, hik]
      simp [List.flatMap_cons, List.append_assoc]

/-- C4: when provisioning of the i-th server request fails, the session
records exactly that error and surfaces it from `execute`, processes no
later server request, keeps the results already collected for the earlier
requests unchanged, and still performs session teardown — the effect trace
ends with closing the remote client and the notification collaborator. -/
theorem execute_stops_and_tears_down_on_failure {ε ρ : Type}
    (pout : Nat → Except ε ρ) (nout : Nat → Except ε Unit) (rs : Nat → ρ) (e : ε)
    (i n : Nat) (hin : i < n)
    (hp : ∀ j, j < i → pout j = Except.ok (rs j))
    (hq : ∀ j, j < i → nout j = Except.ok ())
    (he : pout i = Except.error e) :
    (executeSession (Except.ok ()) none pout nout true n).1 =
      Except.error (ExecErr.sess e) ∧
    (executeProvisioning none pout nout true n).results = (List.range' 0 i).map rs ∧
    (∀ j, i < j → SEffect.provisionCall j ∉
      (executeSession (Except.ok ()) none pout nout true n).2) ∧
    (∃ pre, (executeSession (Except.ok ()) none pout nout true n).2 =
      pre ++ [SEffect.closeClient, SEffect.closeWebhook]) := by
  have hrun := runServers_stop_at_failure pout nout rs e i n 0 hin
    (fun j _ hj => hp j (by omega))
    (fun j _ hj => hq j (by omega))
    (by simpa using he)
  have hprov : executeProvisioning none pout nout true n =
      ⟨(List.range' 0 i).map rs, some e,
        ((List.range' 0 i).flatMap (fun j =>
          [SEffect.provisionCall j, SEffect.notifyCall j]) ++
          [SEffect.provisionCall (0 + i)]) ++ [SEffect.closeClient]⟩ := by
    simp only [executeProvisioning, hrun]
  have hsess : executeSession (Except.ok ()) none pout nout true n =
      (Except.error (ExecErr.sess e),
        (((List.range' 0 i).flatMap (fun j =>
          [SEffect.provisionCall j, SEffect.notifyCall j]) ++
          [SEffect.provisionCall (0 + i)]) ++ [SEffect.closeClient]) ++
          (SEffect.closeClient :: [SEffect.closeWebhook])) := by
    simp only [executeSession, hprov, if_true]
  refine ⟨?_, ?_, ?_, ?_⟩
  · rw [hsess]
  · rw [hprov]
  · intro j hj
    rw [hsess]
    intro hmem
    rcases List.mem_append.mp hmem with h1 | h2
    · rcases List.mem_append.mp h1 with h3 | h4
      · rcases List.mem_append.mp h3 with h5 | h6
        · obtain ⟨b, hb, hbeq⟩ := List.mem_flatMap.mp h5
          have hbr : b < 0 + i := (List.mem_range'_1.mp hb).2
          rcases List.mem_cons.mp hbeq with h | h
          · injection h with h
            omega
          · rcases List.mem_cons.mp h with h | h
            · exact SEffect.noConfusion h
            · exact absurd h (List.not_mem_nil _)
        · have h := List.mem_singleton.mp h6
          injection h with h
          omega
      · have h := List.mem_singleton.mp h4
        exact SEffect.noConfusion h
    · rcases List.mem_cons.mp h2 with h | h
      · exact SEffect.noConfusion h
      · have h := List.mem_singleton.mp h
        exact SEffect.noConfusion h
  · refine ⟨((List.range' 0 i).flatMap (fun j =>
      [SEffect.provisionCall j, SEffect.notifyCall j]) ++
      [SEffect.provisionCall (0 + i)]) ++ [SEffect.closeClient], ?_⟩
    rw [hsess]

theorem execute_stops_and_tears_down_on_failure_witness :
    (executeSession (Except.ok ()) none poutSample noutSample true 3).1 =
      Except.error (ExecErr.sess 7) :=
  (execute_stops_and_tears_down_on_failure poutSample noutSample rsSample 7 1 3
    (by decide)
    (fun j hj => by
      have hj0 : j = 0 := by omega
      subst hj0; rfl)
    (fun j hj => rfl)
    rfl).1
